import Mathlib

/-!
Shallow embedding of the federated-learning aggregation service
(`ml_be/aggregator.py` and `ml_be/main.py`).

Models are treated as an architecture (the ordered list of expected
parameter-tensor shapes) together with an ordered list of parameter
tensors; tensor entries are rationals standing in for floats (all the
arithmetic the spec mentions — sums and division by N — is exact).
Filesystem contents, directory listings and callback-delivery success
are explicit environment parameters.  An exception that the Python code
catches is modelled as `none` / `Except.error` flowing to the handler.
-/

namespace PioneFL

/-- A parameter tensor: a shape together with the flattened float data. -/
structure Tensor where
  shape : List Nat
  data : List ℚ
deriving DecidableEq, Repr, Inhabited

/-- A tensor is well formed when its data has exactly as many entries as
its shape prescribes (as is true of every tensor numpy/Keras produces). -/
def Tensor.wf (t : Tensor) : Prop := t.data.length = t.shape.prod

/-- A Keras model: the architecture (expected shape of each weight slot,
in order) and the current weights (`get_weights`). -/
structure KModel where
  arch : List (List Nat)
  weights : List Tensor
deriving DecidableEq, Repr, Inhabited

/-- A loaded Keras model always carries weights matching its architecture. -/
def KModel.wf (m : KModel) : Prop :=
  m.weights.map Tensor.shape = m.arch ∧ ∀ t ∈ m.weights, t.wf

instance (t : Tensor) : Decidable t.wf := by unfold Tensor.wf; infer_instance

instance (m : KModel) : Decidable m.wf := by unfold KModel.wf Tensor.wf; infer_instance

/-- What the filesystem holds at a path: nothing (`os.path.exists` is
false), an existing but unloadable file (`keras.models.load_model`
raises), or a loadable model. -/
inductive FileState where
  | missing
  | corrupt
  | model (m : KModel)
deriving DecidableEq, Repr, Inhabited

/-- The filesystem, as the aggregator sees it. -/
abbrev FS := String → FileState

/-- The model-loading loop of `aggregate_models` (step 1): paths with
`os.path.exists` false are skipped; a corrupt file makes `load_model`
raise, which the surrounding `try` turns into a failure of the whole
call (`none` here). -/
def loadAll (fs : FS) : List String → Option (List (List Tensor))
  | [] => some []
  | p :: ps =>
    match fs p with
    | .missing => loadAll fs ps
    | .corrupt => none
    | .model m => (loadAll fs ps).map (fun rest => m.weights :: rest)

/-- Length of the shortest list, i.e. how many tuples Python's
`zip(*ls)` yields. -/
def minLen : List (List α) → Nat
  | [] => 0
  | [l] => l.length
  | l :: ls => min l.length (minLen ls)

/-- Python's `zip(*ls)`: the i-th group collects the i-th element of
every list, for i below the length of the shortest list. -/
def pyZip (ls : List (List α)) : List (List α) :=
  (List.range (minLen ls)).map (fun i => ls.filterMap (fun l => l[i]?))

/-- Embeds `np.mean(np.array(tuple), axis=0)`: stacking raises (`none`) unless
all arrays share one shape; otherwise the result is the elementwise sum
divided by the number of arrays. -/
def npStackMean : List Tensor → Option Tensor
  | [] => none
  | t :: ts =>
    if ∀ u ∈ ts, u.shape = t.shape ∧ u.data.length = t.data.length then
      some { shape := t.shape,
             data := (ts.foldl (fun acc u => List.zipWith (· + ·) acc u.data) t.data).map
                       (fun x => x / ((ts.length + 1 : ℕ) : ℚ)) }
    else none

/-- The `avg_weights` loop: one `np.mean` per layer group, any raise
aborting the whole computation. -/
def mapOption (f : α → Option β) : List α → Option (List β)
  | [] => some []
  | x :: xs =>
    match f x with
    | none => none
    | some y => (mapOption f xs).map (fun rest => y :: rest)

/-- Keras `set_weights`: raises (`none`) unless the supplied arrays
match the model's weight slots in number and shape. -/
def setWeights (m : KModel) (ws : List Tensor) : Option KModel :=
  if ws.map Tensor.shape = m.arch then some { m with weights := ws } else none

/-- Embeds `aggregate_models` of `ml_be/aggregator.py`.  Empty input returns
`None` at once; then, inside `try`: load all weights (skipping missing
paths, any raise escaping to the handler), fail if none loaded, average
layerwise over `zip(*all_models_weights)`, reload the first path as the
architecture template and install the averaged weights.  (The source's
`if aggregate_models is None` compares the function object itself and is
never true; it is dead code and contributes nothing here.)  Every raise
is caught and becomes `none`. -/
def aggregate_models (fs : FS) (model_paths : List String) : Option KModel :=
  if model_paths.isEmpty then none
  else
    match loadAll fs model_paths with
    | none => none
    | some allW =>
      if allW.isEmpty then none
      else
        match mapOption npStackMean (pyZip allW) with
        | none => none
        | some avg =>
          match fs (model_paths.headD "") with
          | .model m0 => setWeights m0 avg
          | _ => none

/-- Entry (i, j) of a model's weights, with out-of-range defaults. -/
def tdata (m : KModel) (i j : Nat) : ℚ := ((m.weights.getD i default).data).getD j 0

/-- The value `np.mean(np.array(ts), axis=0)` computes when stacking
succeeds (total companion of `npStackMean`, used to state lemmas). -/
def meanT : List Tensor → Tensor
  | [] => default
  | t :: ts =>
      { shape := t.shape,
        data := (ts.foldl (fun acc u => List.zipWith (· + ·) acc u.data) t.data).map
                  (fun x => x / ((ts.length + 1 : ℕ) : ℚ)) }

/-- The JSON body `run_aggregation_and_callback` posts to the callback
URL: `roundId`, `status` (`"success"`/`"error"`) and the remaining field
(`aggregated_model_path` on success, `message` on error). -/
structure CallbackData where
  roundId : String
  status : String
  payload : String
deriving DecidableEq, Repr

/-- The environment the background task runs against: the directory
listing, the filesystem contents, and whether the outbound
`requests.post` succeeds. -/
structure Env where
  listdir : String → List String
  fs : FS
  postOk : Bool

/-- The constant `OUTPUT_DIR` of `ml_be/main.py`. -/
def OUTPUT_DIR : String := "aggregated_models"

/-- Python's `str.endswith`: the final characters of `s` are `suf`. -/
def pyEndsWith (s suf : String) : Bool := List.isSuffixOf suf.data s.data

/-- The path-collection expression of `run_aggregation_and_callback`:
`[os.path.join(models_dir, f) for f in os.listdir(models_dir) if f.endswith('.h5')]`. -/
def find_model_paths (listdir : String → List String) (models_dir : String) : List String :=
  ((listdir models_dir).filter (fun f => pyEndsWith f ".h5")).map
    (fun f => models_dir ++ "/" ++ f)

/-- What one run of the background task did: the callback body it built,
the saved model path (if any), how often it called `requests.post`, and
whether that post went through. -/
structure RoundOutcome where
  callback_data : CallbackData
  savedPath : Option String
  postTarget : String
  postAttempts : Nat
  postSucceeded : Bool
deriving DecidableEq, Repr

/-- Embeds `run_aggregation_and_callback` of `ml_be/main.py`: list the `.h5`
files, raise if there are none, aggregate, raise if aggregation returned
`None`, save the global model under `OUTPUT_DIR`.  The `except` turns
any of those raises into the error callback body; then the callback is
posted exactly once, its own failure only logged. -/
def run_aggregation_and_callback (env : Env) (round_id models_dir callback_url : String) :
    RoundOutcome :=
  let model_paths := find_model_paths env.listdir models_dir
  let result : Except String String :=
    if model_paths.isEmpty then
      .error "No model files (.h5) found in the specified directory."
    else
      match aggregate_models env.fs model_paths with
      | none => .error "Model aggregation failed. Check logs for details."
      | some _ => .ok (OUTPUT_DIR ++ "/global_model_" ++ round_id ++ ".h5")
  match result with
  | .ok p =>
      { callback_data := { roundId := round_id, status := "success", payload := p },
        savedPath := some p, postTarget := callback_url,
        postAttempts := 1, postSucceeded := env.postOk }
  | .error msg =>
      { callback_data := { roundId := round_id, status := "error", payload := msg },
        savedPath := none, postTarget := callback_url,
        postAttempts := 1, postSucceeded := env.postOk }

/-- Body of `POST /aggregate`. -/
structure AggregationRequest where
  roundId : String
  models_directory : String
  callback_url : String
deriving DecidableEq, Repr

/-- A queued background execution of `run_aggregation_and_callback`
(the arguments `background_tasks.add_task` captures). -/
structure BgTask where
  round_id : String
  models_dir : String
  callback_url : String
deriving DecidableEq, Repr

/-- A FastAPI `HTTPException`. -/
structure HttpEx where
  status_code : Nat
  detail : String
deriving DecidableEq, Repr

/-- The 202 response of the endpoint plus the tasks it enqueued. -/
structure AcceptedResponse where
  http_status : Nat
  status : String
  roundId : String
  tasks : List BgTask
deriving DecidableEq, Repr

/-- Embeds `aggregate_endpoint` of `ml_be/main.py`: a synchronous
`os.path.isdir` check (404 on failure, nothing enqueued), otherwise one
background task is added and `202 Accepted` returned with
`{status, roundId}`. -/
def aggregate_endpoint (isdir : String → Bool) (req : AggregationRequest) :
    Except HttpEx AcceptedResponse :=
  if isdir req.models_directory then
    .ok { http_status := 202, status := "Aggregation process started",
          roundId := req.roundId,
          tasks := [{ round_id := req.roundId, models_dir := req.models_directory,
                      callback_url := req.callback_url }] }
  else
    .error { status_code := 404, detail := "Directory not found: " ++ req.models_directory }

/-! Concrete fixtures used by witnesses and counterexamples. -/

/-- A single-layer model whose one weight vector is `[q]`. -/
def oneLayer (q : ℚ) : KModel := { arch := [[1]], weights := [⟨[1], [q]⟩] }

/-- Filesystem holding the spec's three single-layer artifacts `[1.0]`,
`[2.0]`, `[3.0]`. -/
def fsThree : FS := fun p =>
  if p = "d/a.h5" then .model (oneLayer 1)
  else if p = "d/b.h5" then .model (oneLayer 2)
  else if p = "d/c.h5" then .model (oneLayer 3)
  else .missing

/-- The model each of the three paths holds. -/
def modThree : String → KModel := fun p =>
  if p = "d/a.h5" then oneLayer 1 else if p = "d/b.h5" then oneLayer 2 else oneLayer 3

/-- A two-layer model (longer parameter sequence than `oneLayer`). -/
def twoLayer : KModel := { arch := [[1], [1]], weights := [⟨[1], [3]⟩, ⟨[1], [5]⟩] }

/-- Filesystem pairing a one-layer artifact with a two-layer artifact:
the two disagree on parameter-sequence length. -/
def fsLenMismatch : FS := fun p =>
  if p = "a.h5" then .model (oneLayer 1)
  else if p = "b.h5" then .model twoLayer
  else .missing

/-- Single-layer model with a length-2 weight vector (shape `[2]`). -/
def mShapeA : KModel := { arch := [[2]], weights := [⟨[2], [1, 2]⟩] }

/-- Single-layer model with a length-3 weight vector (shape `[3]`). -/
def mShapeB : KModel := { arch := [[3]], weights := [⟨[3], [1, 2, 3]⟩] }

/-- Filesystem pairing two artifacts whose layer-0 tensors disagree in
shape (`[2]` vs `[3]`). -/
def fsShapeMismatch : FS := fun p =>
  if p = "a.h5" then .model mShapeA else if p = "b.h5" then .model mShapeB else .missing

/-- The model map for `fsShapeMismatch`. -/
def modShape : String → KModel := fun p => if p = "a.h5" then mShapeA else mShapeB

/-- Two valid artifacts and, between them, one existing-but-corrupt
file. -/
def fsCorrupt : FS := fun p =>
  if p = "a.h5" then .model (oneLayer 1)
  else if p = "b.h5" then .corrupt
  else if p = "c.h5" then .model (oneLayer 3)
  else .missing

/-- Two valid artifacts; the middle path does not exist at all. -/
def fsMissing : FS := fun p =>
  if p = "a.h5" then .model (oneLayer 1)
  else if p = "c.h5" then .model (oneLayer 3)
  else .missing

/-- An environment whose directory lists one `.h5` file that exists but
cannot be loaded. -/
def envAllUnreadable : Env :=
  { listdir := fun _ => ["x.h5", "notes.txt"], fs := fun _ => .corrupt, postOk := true }

/-- A directory enumeration that is not in lexical order. -/
def ldUnsorted : String → List String := fun _ => ["b.h5", "a.h5", "zz.txt"]

/-- A concrete `POST /aggregate` request body. -/
def reqDemo : AggregationRequest :=
  { roundId := "r1", models_directory := "models", callback_url := "http://cb/done" }

/-! General lemmas about the embedded operations. -/

theorem minLen_le {α : Type} : ∀ {ls : List (List α)} {w : List α}, w ∈ ls → minLen ls ≤ w.length
  | [l], w, hw => by
      rcases List.mem_singleton.mp hw with rfl
      exact le_of_eq rfl
  | _ :: _ :: _, _, hw => by
      rcases List.mem_cons.mp hw with rfl | hw
      · exact min_le_left _ _
      · exact le_trans (min_le_right _ _) (minLen_le hw)

theorem minLen_eq_of_len {α : Type} {L : Nat} :
    ∀ {ls : List (List α)}, ls ≠ [] → (∀ w ∈ ls, w.length = L) → minLen ls = L
  | [], hne, _ => absurd rfl hne
  | [l], _, h => by simpa [minLen] using h l (by simp)
  | l :: l' :: ls, _, h => by
      have h1 : l.length = L := h l (by simp)
      have h2 : minLen (l' :: ls) = L :=
        minLen_eq_of_len (by simp) (fun w hw => h w (List.mem_cons_of_mem _ hw))
      simp [minLen, h1, h2]

theorem lt_minLen_of_len {α : Type} {i : Nat} :
    ∀ {ls : List (List α)}, ls ≠ [] → (∀ w ∈ ls, i < w.length) → i < minLen ls
  | [], hne, _ => absurd rfl hne
  | [l], _, h => by simpa [minLen] using h l (by simp)
  | l :: l' :: ls, _, h => by
      have h1 : i < l.length := h l (by simp)
      have h2 : i < minLen (l' :: ls) :=
        lt_minLen_of_len (by simp) (fun w hw => h w (List.mem_cons_of_mem _ hw))
      simp [minLen, h1, h2]

theorem getD_map_of_lt {α β : Type} (f : α → β) {w : List α} {i : Nat} (hi : i < w.length)
    (d : β) (d' : α) : (w.map f).getD i d = f (w.getD i d') := by
  rw [List.getD_eq_getElem _ _ (by simpa using hi), List.getElem_map,
    List.getD_eq_getElem _ _ hi]

theorem filterMap_getElem_eq_map {α : Type} (d : α) {i : Nat} :
    ∀ {ls : List (List α)}, (∀ w ∈ ls, i < w.length) →
      ls.filterMap (fun w => w[i]?) = ls.map (fun w => w.getD i d)
  | [], _ => rfl
  | l :: ls, h => by
      have hl : i < l.length := h l (by simp)
      rw [List.filterMap_cons, List.getElem?_eq_getElem hl,
        filterMap_getElem_eq_map d (fun w hw => h w (List.mem_cons_of_mem _ hw))]
      simp [List.getD_eq_getElem _ _ hl, List.getElem?_eq_getElem hl]

theorem foldl_zipWith_length :
    ∀ (ts : List Tensor) (acc : List ℚ), (∀ u ∈ ts, u.data.length = acc.length) →
      (ts.foldl (fun a u => List.zipWith (· + ·) a u.data) acc).length = acc.length
  | [], _, _ => rfl
  | u :: ts, acc, h => by
      have hu : u.data.length = acc.length := h u (by simp)
      have hz : (List.zipWith (· + ·) acc u.data).length = acc.length := by
        simp [List.length_zipWith, hu]
      rw [List.foldl_cons,
        foldl_zipWith_length ts _ (fun v hv => by
          rw [h v (List.mem_cons_of_mem _ hv), hz]), hz]

theorem foldl_zipWith_getD :
    ∀ (ts : List Tensor) (acc : List ℚ) (j : Nat), j < acc.length →
      (∀ u ∈ ts, u.data.length = acc.length) →
      (ts.foldl (fun a u => List.zipWith (· + ·) a u.data) acc).getD j 0 =
        acc.getD j 0 + (ts.map (fun u => u.data.getD j 0)).sum
  | [], _, _, _, _ => by simp
  | u :: ts, acc, j, hj, h => by
      have hu : u.data.length = acc.length := h u (by simp)
      have hz : (List.zipWith (· + ·) acc u.data).length = acc.length := by
        simp [List.length_zipWith, hu]
      have hju : j < u.data.length := by rw [hu]; exact hj
      have hstep : (List.zipWith (· + ·) acc u.data).getD j 0 =
          acc.getD j 0 + u.data.getD j 0 := by
        rw [List.getD_eq_getElem _ _ (by rw [hz]; exact hj), List.getElem_zipWith,
          List.getD_eq_getElem _ _ hj, List.getD_eq_getElem _ _ hju]
      rw [List.foldl_cons,
        foldl_zipWith_getD ts _ j (by rw [hz]; exact hj) (fun v hv => by
          rw [h v (List.mem_cons_of_mem _ hv), hz]), hstep]
      simp [add_assoc]

theorem npStackMean_cons_eq {t : Tensor} {ts : List Tensor}
    (h : ∀ u ∈ ts, u.shape = t.shape ∧ u.data.length = t.data.length) :
    npStackMean (t :: ts) = some (meanT (t :: ts)) := by
  simp only [npStackMean]
  rw [if_pos h]
  rfl

theorem npStackMean_cons_eq_none {t : Tensor} {ts : List Tensor}
    (h : ¬ ∀ u ∈ ts, u.shape = t.shape ∧ u.data.length = t.data.length) :
    npStackMean (t :: ts) = none := by
  simp only [npStackMean]
  exact if_neg h

theorem meanT_shape (t : Tensor) (ts : List Tensor) : (meanT (t :: ts)).shape = t.shape := rfl

theorem meanT_data_length {t : Tensor} {ts : List Tensor}
    (h : ∀ u ∈ ts, u.data.length = t.data.length) :
    (meanT (t :: ts)).data.length = t.data.length := by
  simp [meanT, foldl_zipWith_length ts t.data h]

theorem meanT_getD {t : Tensor} {ts : List Tensor} {j : Nat} (hj : j < t.data.length)
    (h : ∀ u ∈ ts, u.data.length = t.data.length) :
    (meanT (t :: ts)).data.getD j 0 =
      ((t :: ts).map (fun u => u.data.getD j 0)).sum / (((t :: ts).length : ℕ) : ℚ) := by
  have hlen := foldl_zipWith_length ts t.data h
  have hjf : j < (ts.foldl (fun a u => List.zipWith (· + ·) a u.data) t.data).length := by
    rw [hlen]; exact hj
  simp only [meanT]
  rw [getD_map_of_lt _ hjf _ 0, foldl_zipWith_getD ts t.data j hj h]
  simp [add_comm]

theorem meanT_singleton (t : Tensor) : meanT [t] = t := by
  simp [meanT]

theorem mapOption_eq_some_map {α β : Type} (f : α → Option β) (g : α → β) :
    ∀ {l : List α}, (∀ x ∈ l, f x = some (g x)) → mapOption f l = some (l.map g)
  | [], _ => rfl
  | x :: xs, h => by
      simp only [mapOption, h x (by simp),
        mapOption_eq_some_map f g (fun y hy => h y (List.mem_cons_of_mem _ hy))]
      rfl

theorem mapOption_eq_none {α β : Type} (f : α → Option β) :
    ∀ {l : List α} {x : α}, x ∈ l → f x = none → mapOption f l = none
  | l :: ls, x, hx, hfx => by
      rcases List.mem_cons.mp hx with rfl | hx
      · simp [mapOption, hfx]
      · simp only [mapOption]
        rw [mapOption_eq_none f hx hfx]
        cases f l <;> rfl

theorem loadAll_eq_some_map (fs : FS) (M : String → KModel) :
    ∀ {paths : List String}, (∀ p ∈ paths, fs p = .model (M p)) →
      loadAll fs paths = some (paths.map fun p => (M p).weights)
  | [], _ => rfl
  | p :: ps, h => by
      simp only [loadAll, h p (by simp),
        loadAll_eq_some_map fs M (fun q hq => h q (List.mem_cons_of_mem _ hq))]
      rfl

theorem loadAll_unreadable (fs : FS) :
    ∀ {paths : List String}, (∀ p ∈ paths, fs p = .missing ∨ fs p = .corrupt) →
      loadAll fs paths = some [] ∨ loadAll fs paths = none
  | [], _ => Or.inl rfl
  | p :: ps, h => by
      rcases h p (by simp) with hp | hp
      · simpa [loadAll, hp] using
          loadAll_unreadable fs (fun q hq => h q (List.mem_cons_of_mem _ hq))
      · simp [loadAll, hp]

theorem aggregate_models_unreadable (fs : FS) (paths : List String)
    (h : ∀ p ∈ paths, fs p = .missing ∨ fs p = .corrupt) :
    aggregate_models fs paths = none := by
  cases paths with
  | nil => rfl
  | cons p ps =>
      rcases loadAll_unreadable fs h with hl | hl <;>
        simp [aggregate_models, hl]

theorem range_map_getD {α : Type} (w : List α) (d : α) :
    (List.range w.length).map (fun i => w.getD i d) = w := by
  apply List.ext_getElem
  · simp
  · intro i h1 h2
    simp only [List.getElem_map, List.getElem_range]
    exact List.getD_eq_getElem _ _ h2

theorem aggregate_models_cons_eq (fs : FS) (p : String) (ps : List String)
    (allW : List (List Tensor)) (hload : loadAll fs (p :: ps) = some allW)
    (hne : allW ≠ []) :
    aggregate_models fs (p :: ps) =
      match mapOption npStackMean (pyZip allW) with
      | none => none
      | some avg =>
          match fs p with
          | .model m0 => setWeights m0 avg
          | _ => none := by
  simp [aggregate_models, hload, hne]

theorem getD_mem_of_lt {α : Type} {w : List α} {i : Nat} (hi : i < w.length) (d : α) :
    w.getD i d ∈ w := by
  rw [List.getD_eq_getElem _ _ hi]
  exact List.getElem_mem _

theorem avg_props (w0 : List Tensor) (rest : List (List Tensor))
    (hlen : ∀ w ∈ w0 :: rest, w.length = w0.length)
    (hshape : ∀ w ∈ w0 :: rest, w.map Tensor.shape = w0.map Tensor.shape)
    (hwf : ∀ w ∈ w0 :: rest, ∀ t ∈ w, t.wf) :
    ∃ avg, mapOption npStackMean (pyZip (w0 :: rest)) = some avg ∧
      avg.length = w0.length ∧
      avg.map Tensor.shape = w0.map Tensor.shape ∧
      ∀ i, i < w0.length → ∀ j, j < (w0.getD i default).data.length →
        (avg.getD i default).data.getD j 0 =
          ((w0 :: rest).map (fun w => (w.getD i default).data.getD j 0)).sum
            / ((rest.length + 1 : ℕ) : ℚ) := by
  have hmin : minLen (w0 :: rest) = w0.length := minLen_eq_of_len (by simp) hlen
  have hzip : pyZip (w0 :: rest) =
      (List.range w0.length).map
        (fun i => (w0 :: rest).map (fun w => w.getD i default)) := by
    unfold pyZip
    rw [hmin]
    apply List.map_congr_left
    intro i hi
    exact filterMap_getElem_eq_map default (fun w hw => by
      rw [hlen w hw]; exact List.mem_range.mp hi)
  have hmem_getD : ∀ (w : List Tensor) (i : Nat), i < w.length → w.getD i default ∈ w := by
    intro w i hiw
    rw [List.getD_eq_getElem _ _ hiw]
    exact List.getElem_mem _
  have hshape_i : ∀ w ∈ w0 :: rest, ∀ i, i < w0.length →
      (w.getD i default).shape = (w0.getD i default).shape := by
    intro w hw i hi
    have hiw : i < w.length := by rw [hlen w hw]; exact hi
    have hc := congrArg (fun l => l.getD i ([] : List Nat)) (hshape w hw)
    simp only [getD_map_of_lt Tensor.shape hiw ([] : List Nat) default,
      getD_map_of_lt Tensor.shape hi ([] : List Nat) default] at hc
    exact hc
  have hdlen_i : ∀ w ∈ w0 :: rest, ∀ i, i < w0.length →
      (w.getD i default).data.length = (w0.getD i default).data.length := by
    intro w hw i hi
    have hiw : i < w.length := by rw [hlen w hw]; exact hi
    have h1 := hwf w hw _ (hmem_getD w i hiw)
    have h2 := hwf w0 (by simp) _ (hmem_getD w0 i hi)
    rw [Tensor.wf] at h1 h2
    rw [h1, h2, hshape_i w hw i hi]
  have huniform : ∀ i, i < w0.length →
      ∀ u ∈ rest.map (fun w => w.getD i default),
        u.shape = (w0.getD i default).shape ∧
        u.data.length = (w0.getD i default).data.length := by
    intro i hi u hu
    rcases List.mem_map.mp hu with ⟨w, hw, rfl⟩
    exact ⟨hshape_i w (List.mem_cons_of_mem _ hw) i hi,
      hdlen_i w (List.mem_cons_of_mem _ hw) i hi⟩
  have hcond : ∀ x ∈ (List.range w0.length).map
      (fun i => (w0 :: rest).map (fun w => w.getD i default)),
      npStackMean x = some (meanT x) := by
    intro x hx
    rcases List.mem_map.mp hx with ⟨i, hi, rfl⟩
    rw [List.map_cons]
    exact npStackMean_cons_eq (huniform i (List.mem_range.mp hi))
  refine ⟨(List.range w0.length).map
      (fun i => meanT ((w0 :: rest).map (fun w => w.getD i default))), ?_, ?_, ?_, ?_⟩
  · rw [hzip, mapOption_eq_some_map npStackMean meanT hcond, List.map_map]
    rfl
  · simp
  · apply List.ext_getElem
    · simp
    · intro i h1 h2
      simp only [List.getElem_map, List.getElem_range, List.map_cons]
      rw [meanT_shape]
      have hi : i < w0.length := by simpa using h2
      rw [List.getD_eq_getElem _ _ hi]
  · intro i hi j hj
    have hgetD : ((List.range w0.length).map
        (fun i => meanT ((w0 :: rest).map (fun w => w.getD i default)))).getD i default =
        meanT ((w0 :: rest).map (fun w => w.getD i default)) := by
      rw [List.getD_eq_getElem _ _ (by simpa using hi)]
      simp
    rw [hgetD, List.map_cons, meanT_getD hj (fun u hu => (huniform i hi u hu).2),
      List.map_cons,
      ← List.map_cons (fun w => w.getD i default) w0 rest, List.map_map]
    simp [Function.comp_def]

/-! Claim theorems. -/

/-- C1: for every non-empty list of artifact paths that all load, with
parameter-tensor sequences of equal length and matching per-index
shapes, `aggregate_models` succeeds and, for each parameter index `i`
and coordinate `j`, the output tensor entry is the arithmetic mean
across the N artifacts of their entry at `(i, j)`:
`out[i][j] = (1/N) * Σ_k artifact_k[i][j]`. -/
theorem aggregate_models_elementwise_mean (fs : FS) (paths : List String)
    (M : String → KModel) (hne : paths ≠ [])
    (hfs : ∀ p ∈ paths, fs p = .model (M p))
    (hwf : ∀ p ∈ paths, (M p).wf)
    (hsh : ∀ p ∈ paths, (M p).weights.map Tensor.shape =
      (M (paths.headD "")).weights.map Tensor.shape) :
    ∃ agg, aggregate_models fs paths = some agg ∧
      agg.arch = (M (paths.headD "")).arch ∧
      agg.weights.length = (M (paths.headD "")).weights.length ∧
      ∀ i, i < (M (paths.headD "")).weights.length →
        ∀ j, j < ((M (paths.headD "")).weights.getD i default).data.length →
          tdata agg i j =
            (paths.map (fun p => tdata (M p) i j)).sum / ((paths.length : ℕ) : ℚ) := by
  rcases paths with _ | ⟨p0, ps⟩
  · exact absurd rfl hne
  simp only [List.headD_cons] at hsh ⊢
  have hp0 : p0 ∈ p0 :: ps := by simp
  have hload : loadAll fs (p0 :: ps) =
      some ((M p0).weights :: ps.map (fun p => (M p).weights)) := by
    rw [loadAll_eq_some_map fs M hfs, List.map_cons]
  have hlen : ∀ w ∈ (M p0).weights :: ps.map (fun p => (M p).weights),
      w.length = (M p0).weights.length := by
    intro w hw
    rcases List.mem_cons.mp hw with rfl | hw
    · rfl
    · rcases List.mem_map.mp hw with ⟨p, hp, rfl⟩
      have := congrArg List.length (hsh p (List.mem_cons_of_mem _ hp))
      simpa using this
  have hshape : ∀ w ∈ (M p0).weights :: ps.map (fun p => (M p).weights),
      w.map Tensor.shape = (M p0).weights.map Tensor.shape := by
    intro w hw
    rcases List.mem_cons.mp hw with rfl | hw
    · rfl
    · rcases List.mem_map.mp hw with ⟨p, hp, rfl⟩
      exact hsh p (List.mem_cons_of_mem _ hp)
  have hwfT : ∀ w ∈ (M p0).weights :: ps.map (fun p => (M p).weights),
      ∀ t ∈ w, t.wf := by
    intro w hw
    rcases List.mem_cons.mp hw with rfl | hw
    · exact (hwf p0 hp0).2
    · rcases List.mem_map.mp hw with ⟨p, hp, rfl⟩
      exact (hwf p (List.mem_cons_of_mem _ hp)).2
  obtain ⟨avg, hmo, hlenavg, hshapeavg, hdata⟩ :=
    avg_props (M p0).weights (ps.map (fun p => (M p).weights)) hlen hshape hwfT
  have hstep : aggregate_models fs (p0 :: ps) = setWeights (M p0) avg := by
    rw [aggregate_models_cons_eq fs p0 ps _ hload (by simp), hmo, hfs p0 hp0]
  have hsw : setWeights (M p0) avg = some { M p0 with weights := avg } := by
    unfold setWeights
    rw [if_pos (by rw [hshapeavg]; exact (hwf p0 hp0).1)]
  refine ⟨{ M p0 with weights := avg }, by rw [hstep, hsw], rfl, hlenavg, ?_⟩
  intro i hi j hj
  have hd := hdata i hi j hj
  simp only [tdata]
  rw [hd, ← List.map_cons (fun p => (M p).weights) p0 ps, List.map_map]
  simp [Function.comp_def, tdata]

/-- Witness for C1: the spec's scenario of three single-layer artifacts
with weight vectors `[1.0]`, `[2.0]`, `[3.0]`, whose aggregate is
`[2.0]`. -/
theorem aggregate_models_elementwise_mean_witness :
    (∃ agg, aggregate_models fsThree ["d/a.h5", "d/b.h5", "d/c.h5"] = some agg ∧
      agg.arch = (modThree (["d/a.h5", "d/b.h5", "d/c.h5"].headD "")).arch ∧
      agg.weights.length =
        (modThree (["d/a.h5", "d/b.h5", "d/c.h5"].headD "")).weights.length ∧
      ∀ i, i < (modThree (["d/a.h5", "d/b.h5", "d/c.h5"].headD "")).weights.length →
        ∀ j, j <
          ((modThree (["d/a.h5", "d/b.h5", "d/c.h5"].headD "")).weights.getD
            i default).data.length →
          tdata agg i j =
            ((["d/a.h5", "d/b.h5", "d/c.h5"].map
              (fun p => tdata (modThree p) i j)).sum) /
              ((["d/a.h5", "d/b.h5", "d/c.h5"].length : ℕ) : ℚ)) ∧
    aggregate_models fsThree ["d/a.h5", "d/b.h5", "d/c.h5"] =
      some { arch := [[1]], weights := [⟨[1], [2]⟩] } := by
  constructor
  · exact aggregate_models_elementwise_mean fsThree _ modThree (by simp)
      (by decide) (by decide) (by decide)
  · simp +decide [aggregate_models, loadAll, pyZip, minLen, npStackMean, mapOption,
      setWeights, fsThree, oneLayer, List.range_succ]
    norm_num

/-- C5: aggregating exactly one artifact returns a model numerically
identical to that artifact — in fact the very same model value (mean of
one element is the identity, and rational arithmetic is exact). -/
theorem aggregate_models_singleton_identity (fs : FS) (p : String) (m : KModel)
    (h : fs p = .model m) (hwf : m.wf) :
    aggregate_models fs [p] = some m := by
  have hload : loadAll fs [p] = some [m.weights] := by
    simp [loadAll, h]
  have hzip : pyZip [m.weights] =
      (List.range m.weights.length).map (fun i => [m.weights.getD i default]) := by
    unfold pyZip
    apply List.map_congr_left
    intro i hi
    rw [filterMap_getElem_eq_map default (fun w hw => by
      rcases List.mem_singleton.mp hw with rfl
      exact List.mem_range.mp hi)]
    rfl
  have hcond : ∀ x ∈ (List.range m.weights.length).map
      (fun i => [m.weights.getD i default]),
      npStackMean x = some (x.headD default) := by
    intro x hx
    rcases List.mem_map.mp hx with ⟨i, _, rfl⟩
    rw [npStackMean_cons_eq (by simp), meanT_singleton]
    rfl
  have hmo : mapOption npStackMean (pyZip [m.weights]) = some m.weights := by
    rw [hzip, mapOption_eq_some_map npStackMean (fun g => g.headD default) hcond,
      List.map_map]
    have : ((fun g => List.headD g default) ∘ fun i => [m.weights.getD i default]) =
        fun i => m.weights.getD i default := rfl
    rw [this, range_map_getD]
  rw [aggregate_models_cons_eq fs p [] [m.weights] hload (by simp), hmo, h]
  show setWeights m m.weights = some m
  unfold setWeights
  rw [if_pos hwf.1]

/-- Witness for C5: the single artifact with weight vector `[1.0]`
aggregates to itself. -/
theorem aggregate_models_singleton_identity_witness :
    aggregate_models fsThree ["d/a.h5"] = some (oneLayer 1) :=
  aggregate_models_singleton_identity fsThree "d/a.h5" (oneLayer 1) (by decide) (by decide)

/-- C10: `aggregate_models` called with an empty path list returns
`None` through the early guard, for every filesystem. -/
theorem aggregate_models_empty_input (fs : FS) : aggregate_models fs [] = none := rfl

/-- C2 counterexample: two artifacts that disagree on
parameter-sequence length (1 tensor vs 2 tensors) do NOT make
aggregation fail when the first artifact is the shorter one: Python's
`zip(*...)` silently truncates to the common prefix, `set_weights` on
the first artifact's architecture then fits, and a partially averaged
model (`(1+3)/2 = 2` over layer 0 only) is returned. -/
theorem aggregate_models_length_mismatch_succeeds :
    (oneLayer 1).weights.length ≠ twoLayer.weights.length ∧
    aggregate_models fsLenMismatch ["a.h5", "b.h5"] =
      some { arch := [[1]], weights := [⟨[1], [2]⟩] } := by
  constructor
  · decide
  · simp +decide [aggregate_models, loadAll, pyZip, minLen, npStackMean, mapOption,
      setWeights, fsLenMismatch, oneLayer, twoLayer, List.range_succ]
    norm_num

/-- C2 (amended): if two loaded artifacts disagree on a tensor's shape
at one index that is in range for every artifact, the whole aggregation
aborts with `None` — no partial averaging is produced.  (A disagreement
in sequence length alone does not abort: `zip` truncates to the common
prefix, and the run fails only if that prefix does not fit the first
artifact's architecture.) -/
theorem aggregate_models_shape_mismatch_aborts (fs : FS) (paths : List String)
    (M : String → KModel) (hne : paths ≠ [])
    (hfs : ∀ p ∈ paths, fs p = .model (M p))
    (k : Nat) (hk : k < paths.length) (i : Nat)
    (hi : ∀ p ∈ paths, i < (M p).weights.length)
    (hmm : ((M (paths.getD k "")).weights.getD i default).shape ≠
      ((M (paths.headD "")).weights.getD i default).shape) :
    aggregate_models fs paths = none := by
  rcases paths with _ | ⟨p0, ps⟩
  · exact absurd rfl hne
  simp only [List.headD_cons] at hmm
  have hload : loadAll fs (p0 :: ps) =
      some ((M p0).weights :: ps.map (fun p => (M p).weights)) := by
    rw [loadAll_eq_some_map fs M hfs, List.map_cons]
  cases k with
  | zero =>
      rw [List.getD_cons_zero] at hmm
      exact absurd rfl hmm
  | succ k =>
      have hkps : k < ps.length := by simpa using hk
      rw [List.getD_cons_succ] at hmm
      have hlenall : ∀ w ∈ (M p0).weights :: ps.map (fun p => (M p).weights),
          i < w.length := by
        intro w hw
        rcases List.mem_cons.mp hw with rfl | hw
        · exact hi p0 (by simp)
        · rcases List.mem_map.mp hw with ⟨p, hp, rfl⟩
          exact hi p (List.mem_cons_of_mem _ hp)
      have himin : i < minLen ((M p0).weights :: ps.map (fun p => (M p).weights)) :=
        lt_minLen_of_len (by simp) hlenall
      have hgroup_mem :
          List.filterMap (fun w => w[i]?)
              ((M p0).weights :: ps.map (fun p => (M p).weights)) ∈
            pyZip ((M p0).weights :: ps.map (fun p => (M p).weights)) :=
        List.mem_map_of_mem _ (List.mem_range.mpr himin)
      have hgroup_eq :
          List.filterMap (fun w => w[i]?)
              ((M p0).weights :: ps.map (fun p => (M p).weights)) =
            (M p0).weights.getD i default ::
              ps.map (fun p => (M p).weights.getD i default) := by
        rw [filterMap_getElem_eq_map default hlenall, List.map_cons, List.map_map]
        rfl
      have hbad : ((M (ps.getD k "")).weights.getD i default) ∈
          ps.map (fun p => (M p).weights.getD i default) := by
        rw [show (M (ps.getD k "")).weights.getD i default =
            (ps.map (fun p => (M p).weights.getD i default)).getD k default from
          (getD_map_of_lt (fun p => (M p).weights.getD i default) hkps default "").symm]
        exact getD_mem_of_lt (by simpa using hkps) default
      have hnone : npStackMean
          (List.filterMap (fun w => w[i]?)
            ((M p0).weights :: ps.map (fun p => (M p).weights))) = none := by
        rw [hgroup_eq]
        apply npStackMean_cons_eq_none
        intro hall
        exact hmm ((hall _ hbad).1)
      rw [aggregate_models_cons_eq fs p0 ps _ hload (by simp),
        mapOption_eq_none npStackMean hgroup_mem hnone]

/-- Witness for the amended C2: layer-0 shapes `[2]` vs `[3]` make
`aggregate_models` return `None`. -/
theorem aggregate_models_shape_mismatch_aborts_witness :
    aggregate_models fsShapeMismatch ["a.h5", "b.h5"] = none :=
  aggregate_models_shape_mismatch_aborts fsShapeMismatch ["a.h5", "b.h5"] modShape
    (by simp) (by decide) 1 (by decide) 0 (by decide) (by decide)

/-- C3 counterexample: a directory with 2 valid artifacts and 1
existing-but-corrupt file does NOT aggregate the 2 valid ones: the
corrupt file makes `keras.models.load_model` raise inside the loading
loop (only `os.path.exists` is guarded), the exception reaches the
outer handler, and the whole aggregation returns `None`. -/
theorem aggregate_models_corrupt_file_aborts :
    fsCorrupt "b.h5" = .corrupt ∧
    aggregate_models fsCorrupt ["a.h5", "b.h5", "c.h5"] = none := by
  constructor
  · decide
  · simp +decide [aggregate_models, loadAll, fsCorrupt]

/-- C3 (amended): a path that does not exist (`os.path.exists` false)
is skipped with a warning and is not fatal: with 2 valid artifacts and
1 missing path between them, aggregation succeeds on the 2 valid
artifacts alone, averaging them pairwise.  (An existing but corrupt
file, by contrast, aborts the whole aggregation.) -/
theorem aggregate_models_skips_missing_path (fs : FS) (p1 p2 p3 : String)
    (mA mB : KModel) (h1 : fs p1 = .model mA) (h2 : fs p2 = .missing)
    (h3 : fs p3 = .model mB) (hwA : mA.wf) (hwB : mB.wf)
    (hsh : mB.weights.map Tensor.shape = mA.weights.map Tensor.shape) :
    ∃ agg, aggregate_models fs [p1, p2, p3] = some agg ∧
      agg.arch = mA.arch ∧ agg.weights.length = mA.weights.length ∧
      ∀ i, i < mA.weights.length →
        ∀ j, j < (mA.weights.getD i default).data.length →
          tdata agg i j = (tdata mA i j + tdata mB i j) / 2 := by
  have hload : loadAll fs [p1, p2, p3] = some [mA.weights, mB.weights] := by
    simp [loadAll, h1, h2, h3]
  have hlen : ∀ w ∈ [mA.weights, mB.weights], w.length = mA.weights.length := by
    intro w hw
    rcases List.mem_cons.mp hw with rfl | hw
    · rfl
    · rcases List.mem_singleton.mp hw with rfl
      simpa using congrArg List.length hsh
  have hshape : ∀ w ∈ [mA.weights, mB.weights],
      w.map Tensor.shape = mA.weights.map Tensor.shape := by
    intro w hw
    rcases List.mem_cons.mp hw with rfl | hw
    · rfl
    · rcases List.mem_singleton.mp hw with rfl
      exact hsh
  have hwfT : ∀ w ∈ [mA.weights, mB.weights], ∀ t ∈ w, t.wf := by
    intro w hw
    rcases List.mem_cons.mp hw with rfl | hw
    · exact hwA.2
    · rcases List.mem_singleton.mp hw with rfl
      exact hwB.2
  obtain ⟨avg, hmo, hlenavg, hshapeavg, hdata⟩ :=
    avg_props mA.weights [mB.weights] hlen hshape hwfT
  have hstep : aggregate_models fs [p1, p2, p3] = setWeights mA avg := by
    rw [aggregate_models_cons_eq fs p1 [p2, p3] _ hload (by simp), hmo, h1]
  have hsw : setWeights mA avg = some { mA with weights := avg } := by
    unfold setWeights
    rw [if_pos (by rw [hshapeavg]; exact hwA.1)]
  refine ⟨{ mA with weights := avg }, by rw [hstep, hsw], rfl, hlenavg, ?_⟩
  intro i hi j hj
  have hd := hdata i hi j hj
  simp only [tdata]
  rw [hd]
  norm_num

/-- Witness for the amended C3: artifacts `[1.0]` and `[3.0]` with a
missing middle path aggregate successfully to their mean. -/
theorem aggregate_models_skips_missing_path_witness :
    ∃ agg, aggregate_models fsMissing ["a.h5", "b.h5", "c.h5"] = some agg ∧
      agg.arch = (oneLayer 1).arch ∧
      agg.weights.length = (oneLayer 1).weights.length ∧
      ∀ i, i < (oneLayer 1).weights.length →
        ∀ j, j < ((oneLayer 1).weights.getD i default).data.length →
          tdata agg i j = (tdata (oneLayer 1) i j + tdata (oneLayer 3) i j) / 2 :=
  aggregate_models_skips_missing_path fsMissing "a.h5" "b.h5" "c.h5"
    (oneLayer 1) (oneLayer 3) (by decide) (by decide) (by decide)
    (by decide) (by decide) (by decide)

/-- C4: when the models directory lists no loadable artifact (every
listed `.h5` file is missing or corrupt — vacuously, also when no file
has the `.h5` extension), the round terminates with an error-status
result, the callback is still posted, and in the no-`.h5`-files case
the error message is the `NoModelsFound` one. -/
theorem round_failed_no_models (env : Env) (round_id models_dir callback_url : String)
    (h : ∀ f ∈ (env.listdir models_dir).filter (fun f => pyEndsWith f ".h5"),
      env.fs (models_dir ++ "/" ++ f) = .missing ∨
      env.fs (models_dir ++ "/" ++ f) = .corrupt) :
    (run_aggregation_and_callback env round_id models_dir callback_url).callback_data.status
        = "error" ∧
    (run_aggregation_and_callback env round_id models_dir callback_url).postAttempts = 1 ∧
    ((env.listdir models_dir).filter (fun f => pyEndsWith f ".h5") = [] →
      (run_aggregation_and_callback
          env round_id models_dir callback_url).callback_data.payload =
        "No model files (.h5) found in the specified directory.") := by
  have hpaths : ∀ p ∈ find_model_paths env.listdir models_dir,
      env.fs p = .missing ∨ env.fs p = .corrupt := by
    intro p hp
    rcases List.mem_map.mp hp with ⟨f, hf, rfl⟩
    exact h f hf
  have hagg := aggregate_models_unreadable env.fs
    (find_model_paths env.listdir models_dir) hpaths
  unfold run_aggregation_and_callback
  by_cases hemp : (find_model_paths env.listdir models_dir).isEmpty
  · simp [hemp]
  · have hfil : (env.listdir models_dir).filter (fun f => pyEndsWith f ".h5") ≠ [] := by
      intro hnil
      exact hemp (by simp [find_model_paths, hnil])
    simp [hemp, hagg, hfil]

/-- Witness for C4: a directory listing one `.h5` file that exists but
is unloadable yields an error-status callback. -/
theorem round_failed_no_models_witness :
    (run_aggregation_and_callback
        envAllUnreadable "r1" "d" "http://cb/done").callback_data.status = "error" ∧
    (run_aggregation_and_callback
        envAllUnreadable "r1" "d" "http://cb/done").postAttempts = 1 ∧
    ((envAllUnreadable.listdir "d").filter (fun f => pyEndsWith f ".h5") = [] →
      (run_aggregation_and_callback
          envAllUnreadable "r1" "d" "http://cb/done").callback_data.payload =
        "No model files (.h5) found in the specified directory.") :=
  round_failed_no_models envAllUnreadable "r1" "d" "http://cb/done"
    (fun _ _ => Or.inr rfl)

/-- C6: for every environment and round, the background task reaches
the callback step with a result record: the post is attempted exactly
once, aimed at the round's callback URL, carrying the round's id, with
status either `"success"` or `"error"`, and a model is saved exactly in
the success case — no pipeline error escapes the handler. -/
theorem pipeline_errors_always_reach_callback (env : Env) (rid mdir cb : String) :
    (run_aggregation_and_callback env rid mdir cb).postAttempts = 1 ∧
    (run_aggregation_and_callback env rid mdir cb).postTarget = cb ∧
    (run_aggregation_and_callback env rid mdir cb).callback_data.roundId = rid ∧
    ((run_aggregation_and_callback env rid mdir cb).callback_data.status = "success" ∨
      (run_aggregation_and_callback env rid mdir cb).callback_data.status = "error") ∧
    ((run_aggregation_and_callback env rid mdir cb).callback_data.status = "success" ↔
      (run_aggregation_and_callback env rid mdir cb).savedPath.isSome) := by
  unfold run_aggregation_and_callback
  dsimp only
  split <;> simp_all

/-- C7: the round's computed result is independent of whether the
outbound callback post succeeds: the callback body and the saved-model
path agree across delivery outcomes, and the post is attempted exactly
once (no retry). -/
theorem callback_failure_not_surfaced (listdir : String → List String) (fs : FS)
    (rid mdir cb : String) (ok1 ok2 : Bool) :
    (run_aggregation_and_callback ⟨listdir, fs, ok1⟩ rid mdir cb).callback_data =
      (run_aggregation_and_callback ⟨listdir, fs, ok2⟩ rid mdir cb).callback_data ∧
    (run_aggregation_and_callback ⟨listdir, fs, ok1⟩ rid mdir cb).savedPath =
      (run_aggregation_and_callback ⟨listdir, fs, ok2⟩ rid mdir cb).savedPath ∧
    (run_aggregation_and_callback ⟨listdir, fs, ok1⟩ rid mdir cb).postAttempts = 1 ∧
    (run_aggregation_and_callback ⟨listdir, fs, ok1⟩ rid mdir cb).postSucceeded = ok1 := by
  unfold run_aggregation_and_callback
  dsimp only
  split <;> simp_all

/-- C8 counterexample: the Weight Loader does not sort: a directory
enumeration `["b.h5", "a.h5", "zz.txt"]` yields the selected paths in
enumeration order `["d/b.h5", "d/a.h5"]`, which is not in lexical
order. -/
theorem find_model_paths_not_lexical :
    find_model_paths ldUnsorted "d" = ["d/b.h5", "d/a.h5"] ∧
    ¬ List.Sorted (· ≤ ·) (find_model_paths ldUnsorted "d") := by
  have h1 : find_model_paths ldUnsorted "d" = ["d/b.h5", "d/a.h5"] := by
    simp +decide [find_model_paths, ldUnsorted, pyEndsWith]
  refine ⟨h1, ?_⟩
  rw [h1]
  intro hs
  have hle : ("d/b.h5" : String) ≤ "d/a.h5" :=
    (List.pairwise_cons.mp hs).1 _ (by simp)
  rw [String.le_iff_toList_le] at hle
  exact absurd hle (by decide)

/-- C8 (amended): the Weight Loader selects exactly the files with the
`.h5` extension and keeps them in the order the directory enumeration
supplies (a sublist of the joined enumeration); no sorting is applied,
so the order is deterministic only insofar as `os.listdir` is. -/
theorem find_model_paths_selection_order (listdir : String → List String) (d : String) :
    List.Sublist (find_model_paths listdir d) ((listdir d).map (fun f => d ++ "/" ++ f)) ∧
    (∀ f ∈ listdir d, pyEndsWith f ".h5" = true →
      (d ++ "/" ++ f) ∈ find_model_paths listdir d) ∧
    (∀ p ∈ find_model_paths listdir d,
      ∃ f ∈ listdir d, pyEndsWith f ".h5" = true ∧ p = d ++ "/" ++ f) := by
  refine ⟨?_, ?_, ?_⟩
  · exact (List.filter_sublist _).map _
  · intro f hf hh
    exact List.mem_map_of_mem _ (List.mem_filter.mpr ⟨hf, hh⟩)
  · intro p hp
    rcases List.mem_map.mp hp with ⟨f, hf, rfl⟩
    rcases List.mem_filter.mp hf with ⟨hf1, hf2⟩
    exact ⟨f, hf1, hf2, rfl⟩

/-- Witness for the amended C8: with the unsorted enumeration, `a.h5`
is selected (joined to `d/a.h5`) and the selection is a sublist of the
joined enumeration. -/
theorem find_model_paths_selection_order_witness :
    ("d" ++ "/" ++ "a.h5") ∈ find_model_paths ldUnsorted "d" ∧
    List.Sublist (find_model_paths ldUnsorted "d")
      ((ldUnsorted "d").map (fun f => "d" ++ "/" ++ f)) :=
  ⟨(find_model_paths_selection_order ldUnsorted "d").2.1 "a.h5" (by decide) (by decide),
    (find_model_paths_selection_order ldUnsorted "d").1⟩

/-- C9: `POST /aggregate` responds `404 Not Found` and enqueues nothing
when `models_directory` is not a directory; otherwise it responds
`202 Accepted` with `{status: "Aggregation process started", roundId}`
and enqueues exactly one background execution of the round. -/
theorem aggregate_endpoint_validation (isdir : String → Bool) (req : AggregationRequest) :
    (isdir req.models_directory = false →
      aggregate_endpoint isdir req =
        .error { status_code := 404,
                 detail := "Directory not found: " ++ req.models_directory }) ∧
    (isdir req.models_directory = true →
      aggregate_endpoint isdir req =
        .ok { http_status := 202, status := "Aggregation process started",
              roundId := req.roundId,
              tasks := [{ round_id := req.roundId, models_dir := req.models_directory,
                          callback_url := req.callback_url }] } ∧
      ∀ r, aggregate_endpoint isdir req = .ok r → r.tasks.length = 1) := by
  constructor
  · intro h
    simp [aggregate_endpoint, h]
  · intro h
    have hok : aggregate_endpoint isdir req =
        .ok { http_status := 202, status := "Aggregation process started",
              roundId := req.roundId,
              tasks := [{ round_id := req.roundId, models_dir := req.models_directory,
                          callback_url := req.callback_url }] } := by
      simp [aggregate_endpoint, h]
    refine ⟨hok, ?_⟩
    intro r hr
    rw [hok] at hr
    cases hr
    rfl

/-- Witness for C9: a concrete request against a present and an absent
directory. -/
theorem aggregate_endpoint_validation_witness :
    aggregate_endpoint (fun _ => false) reqDemo =
      .error { status_code := 404,
               detail := "Directory not found: " ++ reqDemo.models_directory } ∧
    aggregate_endpoint (fun _ => true) reqDemo =
      .ok { http_status := 202, status := "Aggregation process started",
            roundId := reqDemo.roundId,
            tasks := [{ round_id := reqDemo.roundId, models_dir := reqDemo.models_directory,
                        callback_url := reqDemo.callback_url }] } :=
  ⟨(aggregate_endpoint_validation (fun _ => false) reqDemo).1 rfl,
    ((aggregate_endpoint_validation (fun _ => true) reqDemo).2 rfl).1⟩

end PioneFL
